import Mathlib

/-!
Shallow embedding of the databutton local development orchestrator (the
`databutton` Python package): worker-app registration and port assignment,
manifest writing and watching, the worker-process supervisor, the reverse
proxy, and the periodic-job scheduler.

Modelling conventions: Python dictionaries are association lists with
shadowing (`dictSet` conses a binding, `dictGet` returns the most recent
one); machine integers and timestamps are `Nat`; external effects (process
handles, md5 hashing, JSON serialization, the upstream HTTP connection, job
bodies) are passed in as explicit function arguments; fallible operations
return `Option` or `Except`, where `Except.error` models an uncaught Python
exception leaving the translated function.
-/

namespace Databutton

/-- Python `s.endswith(suffix)`: suffix test on the character list. -/
def pyEndsWith (s suffix : String) : Bool := suffix.data.isSuffixOf s.data

/-- A registered worker app (the `StreamlitApp` dataclass from
`decorators/apps/streamlit.py`). `port` is `Option Nat` because the Python
field can hold `None`; the dataclass default is `0`. -/
structure StreamlitApp where
  filename : String
  uid : String
  name : String
  route : String
  memory : String := "256Mi"
  cpu : String := "0.2"
  port : Option Nat := some 0
  deriving DecidableEq

/-- Route normalization done by the `streamlit` registration decorator:
append a trailing slash when the route does not already end with one. -/
def cleaned_route (route : String) : String :=
  if pyEndsWith route "/" then route else route ++ "/"

/-- The app value built by the `streamlit` registration decorator
(`decorators/apps/streamlit.py`). `md5uuid` abstracts
`str(UUID(md5(cleaned_route.encode()).hexdigest()))`: the uid is a function
of the normalized route and of nothing else. The optional `name`, `memory`
and `cpu` arguments default exactly as in the source; `port` keeps the
dataclass default. -/
def register_streamlit (md5uuid : String → String) (route : String)
    (name : Option String) (funcName : String)
    (memory cpu : Option String) : StreamlitApp :=
  let cr := cleaned_route route
  let uid := md5uuid cr
  { filename := ".databutton/app/tmp-" ++ uid ++ ".py"
    uid := uid
    name := name.getD funcName
    route := cr
    memory := memory.getD "256Mi"
    cpu := cpu.getD "0.2" }

/-- Comparison used by `sorted(_streamlit_apps, key=lambda x: x.route)` in
`utils/build.py`. -/
def routeLE (a b : StreamlitApp) : Prop := a.route ≤ b.route

instance : DecidableRel routeLE :=
  fun a b => inferInstanceAs (Decidable (a.route ≤ b.route))

instance : IsTotal StreamlitApp routeLE := ⟨fun a b => le_total a.route b.route⟩

instance : IsTrans StreamlitApp routeLE := ⟨fun _ _ _ h₁ h₂ => le_trans h₁ h₂⟩

/-- Port assignment of `generate_artifacts_json` (`utils/build.py`): the
registered apps are sorted by route and the i-th app of the sorted order
receives port `8501 + i`. The source mutates the registered apps in place
and emits them in registration order; this definition produces them in
sorted order, carrying the identical route-to-port assignment. -/
def generate_artifacts_json (apps : List StreamlitApp) : List StreamlitApp :=
  (List.insertionSort routeLE apps).enum.map
    fun p => { p.2 with port := some (8501 + p.1) }

/-- The route-to-port mapping carried by the generated artifacts. -/
def routePorts (apps : List StreamlitApp) : List (String × Option Nat) :=
  (generate_artifacts_json apps).map fun a => (a.route, a.port)

/-- The same mapping expressed on a route list alone: the i-th route of the
list is paired with port 8501 + i. -/
def portsOfRoutes (routes : List String) : List (String × Option Nat) :=
  routes.enum.map fun p => (p.2, some (8501 + p.1))

/-- A schedule descriptor (the `DatabuttonSchedule` dataclass from
`decorators/jobs/schedule.py`). `seconds` is declared `float` in the
source; runs are modelled on whole seconds. -/
structure DatabuttonSchedule where
  uid : String
  name : String
  func_name : String
  seconds : Nat
  filepath : String
  module_name : String
  cancel_on_failure : Bool := false
  run_immediately : Bool := true
  deriving DecidableEq

/-- The artifacts manifest (`ArtifactDict` from `utils/build.py`). -/
structure ArtifactDict where
  streamlit_apps : List StreamlitApp
  schedules : List DatabuttonSchedule
  deriving DecidableEq

/-- The source's `ArtifactDict.__eq__` compares JSON serializations. -/
def artifactsEq (to_json : ArtifactDict → String) (a b : ArtifactDict) : Bool :=
  to_json a == to_json b

/-- `write_artifacts_json` (`utils/build.py`) over an explicit disk state:
the manifest file's content, `none` when the file does not exist.
`from_json` and `to_json` abstract the dataclasses-json (de)serialization.
Returns the new disk content and whether a write was performed. -/
def write_artifacts_json (to_json : ArtifactDict → String)
    (from_json : String → ArtifactDict)
    (disk : Option String) (artifacts : ArtifactDict) : Option String × Bool :=
  match disk with
  | some content =>
    if artifactsEq to_json (from_json content) artifacts then (some content, false)
    else (some (to_json artifacts), true)
  | none => (some (to_json artifacts), true)

/-- A file-change event as seen by a watch filter: the reported path,
whether the file exists at that moment, and (for the manifest file) its
current content. -/
structure FsEvent where
  path : String
  fileExists : Bool
  content : String

/-- One call of `ComponentsJsonFilter.__call__` (`server/dev.py`).
`defaultOk` abstracts the inherited `DefaultFilter` test on the path;
`md5hex` abstracts the md5 hex digest taken by `get_components_hash` of the
manifest content carried by the event. The Python fall-through
`return None` is falsy and is modelled as `false`. Returns the verdict and
the updated `prev_hash`. -/
def componentsJsonFilter (defaultOk : String → Bool) (md5hex : String → String)
    (prev_hash : Option String) (ev : FsEvent) : Bool × Option String :=
  if defaultOk ev.path && pyEndsWith ev.path "artifacts.json" then
    if ev.fileExists = false then (false, prev_hash)
    else if some (md5hex ev.content) = prev_hash then (false, prev_hash)
    else (true, some (md5hex ev.content))
  else (false, prev_hash)

/-- The filter applied along a sequence of events, threading `prev_hash`;
returns the verdict for each event. -/
def runComponentsJsonFilter (defaultOk : String → Bool) (md5hex : String → String) :
    Option String → List FsEvent → List Bool
  | _, [] => []
  | prev, ev :: evs =>
    (componentsJsonFilter defaultOk md5hex prev ev).1 ::
      runComponentsJsonFilter defaultOk md5hex
        (componentsJsonFilter defaultOk md5hex prev ev).2 evs

/-- The fixed readiness line searched for in the worker's standard output by
`start_process` (`server/dev.py`). -/
def ready_marker : List Char :=
  "You can now view your Streamlit app in your browser".data

/-- Python `pat in s`: substring test. -/
def containsSub (pat l : List Char) : Bool :=
  (List.range (l.length + 1)).any fun i => pat.isPrefixOf (l.drop i)

/-- `BufferedByteReceiveStream.receive_exactly n`: the first `n` bytes of
the stream, or `none` (anyio `IncompleteRead` / `EndOfStream`) when the
stream ends first. -/
def receive_exactly (n : Nat) (stream : List Char) : Option (List Char) :=
  if n ≤ stream.length then some (stream.take n) else none

/-- Outcome of the readiness handshake of `StreamlitWatcher.start_process`. -/
inductive StartOutcome where
  | started
  | errorStarting
  | couldNotStart (stderr : String)
  deriving DecidableEq

/-- The readiness handshake of `StreamlitWatcher.start_process`
(`server/dev.py`): read exactly 100 bytes of standard output (no timeout is
applied); a full read whose repr does not contain the ready marker raises
the generic `Exception("Error in starting streamlit")` (`errorStarting`); a
short read (`IncompleteRead`/`EndOfStream`) raises
`CouldNotStartError(repr(stderr))`, which carries the captured standard
error. -/
def start_process_handshake (stdout : List Char) (stderr : String) : StartOutcome :=
  match receive_exactly 100 stdout with
  | some out => if containsSub ready_marker out then .started else .errorStarting
  | none => .couldNotStart stderr

/-- Python `str(port)` inside the stable-id f-string; `None` prints as
`"None"`. -/
def portStr : Option Nat → String
  | some p => Nat.repr p
  | none => "None"

/-- `StreamlitWatcher.get_stable_app_id`: the f-string
`f"{app.uid}-{app.port}"`. -/
def get_stable_app_id (app : StreamlitApp) : String :=
  app.uid ++ "-" ++ portStr app.port

/-- Python dict assignment `d[k] = v`, as an association list with
shadowing: the newest binding wins on lookup. -/
def dictSet (d : List (String × α)) (k : String) (v : α) : List (String × α) :=
  (k, v) :: d

/-- Python dict lookup `d.get(k)`. -/
def dictGet (d : List (String × α)) (k : String) : Option α :=
  (d.find? fun p => p.1 == k).map Prod.snd

/-- Python `set(d.keys())`. -/
def dictKeys (d : List (String × α)) : Finset String :=
  (d.map Prod.fst).toFinset

/-- The dict comprehension `{self.get_stable_app_id(app): app for app in
apps}` from `update_processes_from_apps`. -/
def buildAppsMap (apps : List StreamlitApp) : List (String × StreamlitApp) :=
  apps.foldl (fun d a => dictSet d (get_stable_app_id a) a) []

/-- Worker process handles (asyncio `Process` objects) abstracted to `Nat`. -/
abbrev ProcHandle := Nat

/-- `StreamlitWatcher` state: the fields `self.apps` and `self.processes`. -/
structure WatcherState where
  apps : List (String × StreamlitApp)
  processes : List (String × ProcHandle)

/-- The restart test of the `new & old` branch of
`update_processes_from_apps`: the old and the new app stored at a shared
stable id have different uids. -/
def restartCond (apps_map previous : List (String × StreamlitApp)) (k : String) : Bool :=
  match dictGet apps_map k, dictGet previous k with
  | some na, some oa => oa.uid != na.uid
  | _, _ => false

/-- Result of one reconciliation: the new watcher state, the returned
boolean, and the key sets for which `start_process` and `stop_process` were
launched. -/
structure ReconcileResult where
  state : WatcherState
  changed : Bool
  started : Finset String
  stopped : Finset String

/-- `StreamlitWatcher.update_processes_from_apps` (`server/dev.py`).
`fresh` abstracts the handle of the process started for a key;
`start_process` stores the new handle under its key, `stop_process` does
not remove entries from `self.processes`. The start/stop operations are
launched concurrently over disjoint key sets, so the fold order of the
dictionary updates is immaterial. -/
def update_processes_from_apps (s : WatcherState) (apps : List StreamlitApp)
    (fresh : String → ProcHandle) : ReconcileResult :=
  let apps_map := buildAppsMap apps
  let previous := s.apps
  let oldKeys := dictKeys previous
  let newKeys := dictKeys apps_map
  let new_apps := ((apps_map.map Prod.fst).dedup).filter fun k => decide (k ∉ oldKeys)
  let deleted_apps := ((previous.map Prod.fst).dedup).filter fun k => decide (k ∉ newKeys)
  let restarted := ((apps_map.map Prod.fst).dedup).filter
    fun k => decide (k ∈ oldKeys) && restartCond apps_map previous k
  let startKeys := new_apps ++ restarted
  { state :=
      { apps := apps_map
        processes := startKeys.foldl (fun d k => dictSet d k (fresh k)) s.processes }
    changed := (new_apps.length != 0) || (deleted_apps.length != 0)
    started := startKeys.toFinset
    stopped := deleted_apps.toFinset ∪ restarted.toFinset }

/-- Key consistency of the watcher state: every stored app sits under its
own stable id. Every state `update_processes_from_apps` produces satisfies
this. -/
def WatcherState.wf (s : WatcherState) : Prop :=
  ∀ p ∈ s.apps, get_stable_app_id p.2 = p.1

/-- An incoming HTTP request at the proxy. -/
structure ProxyRequest where
  method : String
  path : String
  query : String
  headers : List (String × String)
  body : String
  deriving DecidableEq

/-- The request `_reverse_proxy` builds and sends to the worker. `port` is
the worker port baked into `base_url`. -/
structure UpstreamRequest where
  method : String
  path : String
  query : String
  headers : List (String × String)
  body : String
  port : Option Nat
  deriving DecidableEq

/-- The worker's response as seen by httpx; the body is a stream of raw
chunks. -/
structure UpstreamResponse where
  status_code : Nat
  headers : List (String × String)
  chunks : List String
  deriving DecidableEq

/-- The `StreamingResponse` returned to the client. -/
structure ProxyResponse where
  status_code : Nat
  headers : List (String × String)
  chunks : List String
  deriving DecidableEq

/-- Starlette's route pattern `app.route + "{rest:path}"`: the request path
matches when it extends the mount prefix, and `rest` is the remainder. -/
def routeMatch (route path : String) : Option String :=
  if route.data.isPrefixOf path.data then
    some (String.mk (path.data.drop route.data.length))
  else none

/-- The upstream request built by `_reverse_proxy`
(`decorators/apps/streamlit.py`): the relative path `rest` is joined onto
`base_url = "http://localhost:{port}/"`, giving path `"/" ++ rest`; query,
method, raw headers and body are passed through unchanged. -/
def forwardedRequest (app : StreamlitApp) (req : ProxyRequest) (rest : String) :
    UpstreamRequest :=
  { method := req.method
    path := "/" ++ rest
    query := req.query
    headers := req.headers
    body := req.body
    port := app.port }

/-- The body of the `_reverse_proxy` HTTP route handler. `send` abstracts
the httpx connection to the worker; a transport error (`Except.error`)
propagates out of the handler, since the source wraps nothing in
try/except here. On success the `StreamingResponse` carries the upstream
status code, headers and raw body chunks. -/
def reverse_proxy (app : StreamlitApp) (req : ProxyRequest) (rest : String)
    (send : UpstreamRequest → Except String UpstreamResponse) :
    Except String (UpstreamRequest × ProxyResponse) :=
  match send (forwardedRequest app req rest) with
  | .ok r =>
    .ok (forwardedRequest app req rest,
      { status_code := r.status_code, headers := r.headers, chunks := r.chunks })
  | .error e => .error e

/-- Route dispatch plus handler for one app: `none` when the path does not
match the app's mount prefix. -/
def route_http (app : StreamlitApp) (req : ProxyRequest)
    (send : UpstreamRequest → Except String UpstreamResponse) :
    Option (Except String (UpstreamRequest × ProxyResponse)) :=
  (routeMatch app.route req.path).map fun rest => reverse_proxy app req rest send

/-- Outcome of the websocket proxy handler. -/
inductive WsOutcome where
  | notFound
  | completed
  | errorLogged (msg : String)
  deriving DecidableEq

/-- `handle_proxied_websocket` (`decorators/apps/streamlit.py`): a `None`
port yields a 404 not-found response; otherwise the whole proxied session
(connect plus the two forwarding loops) — abstracted by `session` — runs,
and any exception it raises is caught by the handler's `except`, logged,
and the handler returns normally. -/
def handle_proxied_websocket (port : Option Nat)
    (session : Nat → Except String Unit) : WsOutcome :=
  match port with
  | none => .notFound
  | some p =>
    match session p with
    | .ok _ => .completed
    | .error e => .errorLogged e

/-- Run-state of one scheduled job: the mutable fields of the `schedule.Job`
instance (`last_run`, `next_run`, the interval) together with the attached
`DatabuttonSchedule` policy flags. -/
structure SchedJob where
  uid : String
  interval : Nat
  cancel_on_failure : Bool
  run_immediately : Bool
  last_run : Option Nat := none
  next_run : Nat
  deriving DecidableEq

/-- Modelled from the spec: the third-party scheduling base class
(`schedule.Job.should_run`) is not part of the repository; the spec defines
Due as current time ≥ next_run. -/
def SchedJob.should_run (j : SchedJob) (now : Nat) : Bool := j.next_run ≤ now

/-- Modelled from the spec: the third-party `schedule.Job._schedule_next_run`
is not part of the repository; the spec computes the next run from the
interval and the run time. -/
def SchedJob.schedule_next_run (j : SchedJob) (now : Nat) : SchedJob :=
  { j with next_run := now + j.interval }

/-- Modelled from the spec: the third-party `schedule.Job._is_overdue` is
not part of the repository; the spec's overdue guard fires when next_run
has fallen more than one full interval behind the current time. -/
def SchedJob.is_overdue (j : SchedJob) (now : Nat) : Bool :=
  j.next_run + j.interval < now

/-- Return value of `Job.run`: `schedule.CancelJob`, or an ordinary value
(the body's result, or the caught exception object when
`cancel_on_failure` is unset). -/
inductive RunRet where
  | cancelJob
  | value
  deriving DecidableEq

/-- Everything one `Job.run` call produces: the job's updated state, the
returned value, whether the job body was invoked, and the success flag
recorded on the `JobRunLogger` (`none` when no job run was opened). -/
structure RunOutcome where
  job : SchedJob
  ret : RunRet
  executed : Bool
  recorded_success : Option Bool
  deriving DecidableEq

/-- `Job.run` (`decorators/jobs/schedule.py`), with the job body abstracted
to whether it raises and its duration taken as zero (so the run's start,
reschedule and post-check all see the same clock value `now`). Overdue at
entry: return `CancelJob` without executing the body. Otherwise the body
runs under a `JobRunLogger` recording success; a raised error with
`cancel_on_failure` makes the return value `CancelJob`, else the error
object is returned; `last_run` is set to the run's start time and the next
run is scheduled, then the overdue guard is checked once more. -/
def SchedJob.run (j : SchedJob) (now : Nat) (bodyRaises : Bool) : RunOutcome :=
  if j.is_overdue now then
    { job := j, ret := .cancelJob, executed := false, recorded_success := none }
  else
    let success := !bodyRaises
    let ret := if bodyRaises && j.cancel_on_failure then RunRet.cancelJob else RunRet.value
    let j' := SchedJob.schedule_next_run { j with last_run := some now } now
    if j'.is_overdue now then
      { job := j', ret := .cancelJob, executed := true, recorded_success := some success }
    else
      { job := j', ret := ret, executed := true, recorded_success := some success }

/-- `Scheduler.run_pending` (`decorators/jobs/schedule.py`): collect the
runnable jobs — those with `should_run`, or all of them when an override
pool forces the first tick — and start `job.run` for each inside a task
group. The return value of `job.run` (including `schedule.CancelJob`) is
discarded by `tg.start_soon`, and no job is ever removed from the job
list. `bodyRaises` abstracts each job body (by uid); the first component is
the job list after the tick, the second the outcomes of the started runs. -/
def run_pending (jobs : List SchedJob) (now : Nat) (force : Bool)
    (bodyRaises : String → Bool) : List SchedJob × List RunOutcome :=
  ( jobs.map fun j =>
      if j.should_run now || force then (j.run now (bodyRaises j.uid)).job else j,
    (jobs.filter fun j => j.should_run now || force).map
      fun j => j.run now (bodyRaises j.uid) )

/-! Helper lemmas. -/

theorem pyEndsWith_append_slash (s : String) : pyEndsWith (s ++ "/") "/" = true := by
  unfold pyEndsWith
  rw [String.data_append]
  exact List.isSuffixOf_iff_suffix.mpr (List.suffix_append _ _)

theorem cleaned_route_endsWith (r : String) : pyEndsWith (cleaned_route r) "/" = true := by
  unfold cleaned_route
  by_cases h : pyEndsWith r "/" = true
  · rw [if_pos h]; exact h
  · rw [if_neg h]; exact pyEndsWith_append_slash r

theorem cleaned_route_append_slash (r : String) (h : pyEndsWith r "/" = false) :
    cleaned_route (r ++ "/") = cleaned_route r := by
  unfold cleaned_route
  rw [if_pos (pyEndsWith_append_slash r), if_neg (by rw [h]; exact Bool.false_ne_true)]

/-- C10: the streamlit registration decorator always appends a trailing
slash to a route missing one, and the registered uid (and every other
field) depends only on the normalized route, so registering a route with
and without the trailing slash produces identical apps. -/
theorem streamlit_route_slash_normalization (md5uuid : String → String)
    (route : String) (name : Option String) (funcName : String)
    (memory cpu : Option String) :
    pyEndsWith (register_streamlit md5uuid route name funcName memory cpu).route "/" = true ∧
    (pyEndsWith route "/" = false →
      register_streamlit md5uuid (route ++ "/") name funcName memory cpu =
        register_streamlit md5uuid route name funcName memory cpu) := by
  constructor
  · exact cleaned_route_endsWith route
  · intro h
    unfold register_streamlit
    rw [cleaned_route_append_slash route h]

/-- Witness for C10 at the routes "/a" and "/a" ++ "/". -/
theorem streamlit_route_slash_normalization_witness :
    pyEndsWith "/a" "/" = false ∧
    register_streamlit (fun s => s) ("/a" ++ "/") none "f" none none =
      register_streamlit (fun s => s) "/a" none "f" none none :=
  ⟨by decide,
   (streamlit_route_slash_normalization (fun s => s) "/a" none "f" none none).2 (by decide)⟩

/-- C9: write_artifacts_json leaves an existing manifest untouched exactly
when the file's parsed content serializes equal to the new value; when the
serializations differ, or the file does not exist, the content is fully
replaced by the serialization of the new value. -/
theorem write_artifacts_json_frame (to_json : ArtifactDict → String)
    (from_json : String → ArtifactDict) (content : String) (a : ArtifactDict) :
    (to_json (from_json content) = to_json a →
      write_artifacts_json to_json from_json (some content) a = (some content, false)) ∧
    (to_json (from_json content) ≠ to_json a →
      write_artifacts_json to_json from_json (some content) a = (some (to_json a), true)) ∧
    write_artifacts_json to_json from_json none a = (some (to_json a), true) := by
  refine ⟨fun h => ?_, fun h => ?_, rfl⟩
  · simp [write_artifacts_json, artifactsEq, h]
  · simp [write_artifacts_json, artifactsEq, h]

/-- Witness for C9 with a length-counting serializer: an equal manifest is
not rewritten, a different or missing one is replaced. -/
theorem write_artifacts_json_frame_witness :
    write_artifacts_json (fun d => Nat.repr d.streamlit_apps.length) (fun _ => ⟨[], []⟩)
      (some "old") ⟨[], []⟩ = (some "old", false) ∧
    write_artifacts_json (fun d => Nat.repr d.streamlit_apps.length) (fun _ => ⟨[], []⟩)
      (some "old") ⟨[{ filename := "f", uid := "u", name := "n", route := "/r/" }], []⟩ =
        (some "1", true) ∧
    write_artifacts_json (fun d => Nat.repr d.streamlit_apps.length) (fun _ => ⟨[], []⟩)
      none ⟨[], []⟩ = (some "0", true) :=
  ⟨(write_artifacts_json_frame _ _ "old" ⟨[], []⟩).1 (by decide),
   (write_artifacts_json_frame _ _ "old"
      ⟨[{ filename := "f", uid := "u", name := "n", route := "/r/" }], []⟩).2.1 (by decide),
   (write_artifacts_json_frame _ _ "unused" ⟨[], []⟩).2.2⟩

theorem componentsJsonFilter_accept_shape (defaultOk : String → Bool)
    (md5hex : String → String) (prev : Option String) (ev : FsEvent)
    (h : (componentsJsonFilter defaultOk md5hex prev ev).1 = true) :
    pyEndsWith ev.path "artifacts.json" = true ∧ ev.fileExists = true ∧
      some (md5hex ev.content) ≠ prev := by
  unfold componentsJsonFilter at h
  split_ifs at h with h1 h2 h3
  exact ⟨(Bool.and_eq_true _ _ |>.mp h1).2, by
    revert h2; cases ev.fileExists <;> simp_all, h3⟩

theorem componentsJsonFilter_accept_state (defaultOk : String → Bool)
    (md5hex : String → String) (prev : Option String) (ev : FsEvent)
    (h : (componentsJsonFilter defaultOk md5hex prev ev).1 = true) :
    (componentsJsonFilter defaultOk md5hex prev ev).2 = some (md5hex ev.content) := by
  unfold componentsJsonFilter at h ⊢
  split_ifs at h ⊢ <;> simp_all

theorem componentsJsonFilter_reject_state (defaultOk : String → Bool)
    (md5hex : String → String) (prev : Option String) (ev : FsEvent)
    (h : (componentsJsonFilter defaultOk md5hex prev ev).1 = false) :
    (componentsJsonFilter defaultOk md5hex prev ev).2 = prev := by
  unfold componentsJsonFilter at h ⊢
  split_ifs at h ⊢ <;> simp_all

theorem componentsJsonFilter_same_hash (defaultOk : String → Bool)
    (md5hex : String → String) (c : String) (ev : FsEvent) (hc : ev.content = c) :
    componentsJsonFilter defaultOk md5hex (some (md5hex c)) ev =
      (false, some (md5hex c)) := by
  subst hc
  unfold componentsJsonFilter
  split_ifs <;> simp_all

theorem runComponentsJsonFilter_same_hash (defaultOk : String → Bool)
    (md5hex : String → String) (c : String) (evs : List FsEvent)
    (hall : ∀ ev ∈ evs, ev.content = c) :
    (runComponentsJsonFilter defaultOk md5hex (some (md5hex c)) evs).count true = 0 := by
  induction evs with
  | nil => rfl
  | cons ev evs ih =>
    unfold runComponentsJsonFilter
    rw [componentsJsonFilter_same_hash defaultOk md5hex c ev (hall ev (List.mem_cons_self ev evs))]
    simpa using ih (fun e he => hall e (List.mem_cons_of_mem ev he))

theorem runComponentsJsonFilter_constant_le_one (defaultOk : String → Bool)
    (md5hex : String → String) (c : String) (evs : List FsEvent) :
    ∀ prev : Option String, (∀ ev ∈ evs, ev.content = c) →
      (runComponentsJsonFilter defaultOk md5hex prev evs).count true ≤ 1 := by
  induction evs with
  | nil => intro prev _; simp [runComponentsJsonFilter]
  | cons ev evs ih =>
    intro prev hall
    unfold runComponentsJsonFilter
    by_cases hacc : (componentsJsonFilter defaultOk md5hex prev ev).1 = true
    · rw [hacc]
      have hst := componentsJsonFilter_accept_state defaultOk md5hex prev ev hacc
      rw [hst, hall ev (List.mem_cons_self ev evs)]
      have h0 := runComponentsJsonFilter_same_hash defaultOk md5hex c evs
        (fun e he => hall e (List.mem_cons_of_mem ev he))
      simp [List.count_cons, h0]
    · rw [Bool.not_eq_true] at hacc
      rw [hacc,
        componentsJsonFilter_reject_state defaultOk md5hex prev ev hacc]
      have := ih prev (fun e he => hall e (List.mem_cons_of_mem ev he))
      simpa [List.count_cons] using this

/-- C8: the manifest watch filter accepts an event only when the path is
the manifest file, the file exists, and the content hash differs from the
last hash the filter stored; along any event sequence rewriting the
manifest with byte-identical content, at most one event is accepted — the
second and later identical rewrites produce none. -/
theorem componentsJsonFilter_spec :
    (∀ (defaultOk : String → Bool) (md5hex : String → String)
        (prev : Option String) (ev : FsEvent),
      (componentsJsonFilter defaultOk md5hex prev ev).1 = true →
        pyEndsWith ev.path "artifacts.json" = true ∧ ev.fileExists = true ∧
          some (md5hex ev.content) ≠ prev) ∧
    (∀ (defaultOk : String → Bool) (md5hex : String → String)
        (prev : Option String) (c : String) (evs : List FsEvent),
      (∀ ev ∈ evs, ev.content = c) →
        (runComponentsJsonFilter defaultOk md5hex prev evs).count true ≤ 1) :=
  ⟨componentsJsonFilter_accept_shape,
   fun defaultOk md5hex prev c evs hall =>
     runComponentsJsonFilter_constant_le_one defaultOk md5hex c evs prev hall⟩

/-- Witness for C8: a first manifest rewrite is accepted, and of three
byte-identical rewrites at most one event is accepted (concretely, only
the first). -/
theorem componentsJsonFilter_spec_witness :
    (pyEndsWith ".databutton/artifacts.json" "artifacts.json" = true ∧
      FsEvent.fileExists ⟨".databutton/artifacts.json", true, "m"⟩ = true ∧
      some ((fun s => s ++ "#") "m") ≠ (none : Option String)) ∧
    (runComponentsJsonFilter (fun _ => true) (fun s => s ++ "#") none
      [⟨".databutton/artifacts.json", true, "m"⟩,
       ⟨".databutton/artifacts.json", true, "m"⟩,
       ⟨".databutton/artifacts.json", true, "m"⟩]).count true ≤ 1 :=
  ⟨componentsJsonFilter_spec.1 (fun _ => true) (fun s => s ++ "#") none
      ⟨".databutton/artifacts.json", true, "m"⟩ (by decide),
   componentsJsonFilter_spec.2 (fun _ => true) (fun s => s ++ "#") none "m"
      [⟨".databutton/artifacts.json", true, "m"⟩,
       ⟨".databutton/artifacts.json", true, "m"⟩,
       ⟨".databutton/artifacts.json", true, "m"⟩] (by decide)⟩

/-- C5 counterexample: one hundred bytes of output that never mention the
ready marker. The read is missing the designated ready marker, yet start
fails with the generic startup exception, not with a
CouldNotStartError carrying the captured standard error. -/
theorem start_process_no_marker_not_couldNotStart :
    containsSub ready_marker (List.replicate 100 'x') = false ∧
    start_process_handshake (List.replicate 100 'x') "captured stderr" =
      StartOutcome.errorStarting ∧
    StartOutcome.errorStarting ≠ StartOutcome.couldNotStart "captured stderr" := by
  refine ⟨by decide, ?_, by decide⟩
  decide

/-- C5 (amended): the handshake reads exactly 100 bytes with no timeout; a
stream that ends before 100 bytes makes start fail with
CouldNotStartError carrying the captured standard error; a full 100-byte
read without the ready marker fails with the generic exception (no stderr
attached); a full read containing the marker succeeds. -/
theorem start_process_handshake_spec (stdout : List Char) (stderr : String) :
    (stdout.length < 100 →
      start_process_handshake stdout stderr = StartOutcome.couldNotStart stderr) ∧
    (100 ≤ stdout.length → containsSub ready_marker (stdout.take 100) = false →
      start_process_handshake stdout stderr = StartOutcome.errorStarting) ∧
    (100 ≤ stdout.length → containsSub ready_marker (stdout.take 100) = true →
      start_process_handshake stdout stderr = StartOutcome.started) := by
  refine ⟨fun h => ?_, fun h hm => ?_, fun h hm => ?_⟩
  · unfold start_process_handshake receive_exactly
    rw [if_neg (by omega)]
  · unfold start_process_handshake receive_exactly
    rw [if_pos h]
    simp [hm]
  · unfold start_process_handshake receive_exactly
    rw [if_pos h]
    simp [hm]

/-- Witness for C5 on three concrete streams: an empty stream, a markerless
full read, and a full read containing the marker. -/
theorem start_process_handshake_spec_witness :
    start_process_handshake [] "boom" = StartOutcome.couldNotStart "boom" ∧
    start_process_handshake (List.replicate 100 'y') "boom" = StartOutcome.errorStarting ∧
    start_process_handshake (ready_marker ++ List.replicate 49 ' ') "boom" =
      StartOutcome.started :=
  ⟨(start_process_handshake_spec [] "boom").1 (by decide),
   (start_process_handshake_spec (List.replicate 100 'y') "boom").2.1 (by decide) (by decide),
   (start_process_handshake_spec (ready_marker ++ List.replicate 49 ' ') "boom").2.2
     (by decide) (by decide)⟩

/-- C6: for a request whose path extends the app's mount prefix, routing
strips exactly the prefix, the forwarded request carries the stripped path
(rooted at the worker), the original query, method, headers and body
unchanged, and the response handed back to the client carries the worker's
original status code and headers (and raw body chunks). -/
theorem reverse_proxy_forwards (app : StreamlitApp) (req : ProxyRequest) (rest : String)
    (send : UpstreamRequest → Except String UpstreamResponse)
    (hpath : req.path = app.route ++ rest) :
    routeMatch app.route req.path = some rest ∧
    forwardedRequest app req rest =
      { method := req.method, path := "/" ++ rest, query := req.query,
        headers := req.headers, body := req.body, port := app.port } ∧
    ∀ r : UpstreamResponse, send (forwardedRequest app req rest) = Except.ok r →
      route_http app req send =
        some (Except.ok (forwardedRequest app req rest,
          { status_code := r.status_code, headers := r.headers, chunks := r.chunks })) := by
  have hmatch : routeMatch app.route req.path = some rest := by
    rw [hpath]
    unfold routeMatch
    rw [String.data_append,
      if_pos (List.isPrefixOf_iff_prefix.mpr (List.prefix_append _ _))]
    rw [List.drop_left]
  refine ⟨hmatch, rfl, fun r hr => ?_⟩
  unfold route_http
  rw [hmatch]
  simp only [Option.map_some']
  unfold reverse_proxy
  rw [hr]

/-- Witness for C6: a GET for "/a/" ++ "foo" with query "x=1" is forwarded
as "/foo" with the query, headers and body intact, and the upstream
status, headers and chunks come back unchanged. -/
theorem reverse_proxy_forwards_witness :
    route_http
        { filename := "f", uid := "u", name := "a", route := "/a/", port := some 8501 }
        { method := "GET", path := "/a/" ++ "foo", query := "x=1",
          headers := [("host", "h")], body := "B" }
        (fun _ => Except.ok { status_code := 201, headers := [("k", "v")], chunks := ["c1", "c2"] }) =
      some (Except.ok
        ({ method := "GET", path := "/" ++ "foo", query := "x=1",
           headers := [("host", "h")], body := "B", port := some 8501 },
         { status_code := 201, headers := [("k", "v")], chunks := ["c1", "c2"] })) :=
  (reverse_proxy_forwards
    { filename := "f", uid := "u", name := "a", route := "/a/", port := some 8501 }
    { method := "GET", path := "/a/" ++ "foo", query := "x=1",
      headers := [("host", "h")], body := "B" }
    "foo"
    (fun _ => Except.ok { status_code := 201, headers := [("k", "v")], chunks := ["c1", "c2"] })
    rfl).2.2
    { status_code := 201, headers := [("k", "v")], chunks := ["c1", "c2"] } rfl

/-- C7 counterexample: an HTTP request proxied to a worker that refuses the
connection does not produce a not-found response — the transport error
propagates out of the route handler. -/
theorem http_unready_worker_raises :
    route_http
        { filename := "f", uid := "u", name := "a", route := "/a/", port := some 8501 }
        { method := "GET", path := "/a/foo", query := "", headers := [], body := "" }
        (fun _ => Except.error "ConnectError") =
      some (Except.error "ConnectError") := rfl

/-- C7 (amended): a websocket stream to an app with no usable port yields a
not-found response, and an error raised during a proxied websocket session
is caught and logged (the handler returns normally, containing the failure
to that one connection); an HTTP request to an unready worker instead lets
the transport error escape the handler — there is no not-found response on
the HTTP path. -/
theorem proxy_failure_containment :
    (∀ session : Nat → Except String Unit,
      handle_proxied_websocket none session = WsOutcome.notFound) ∧
    (∀ (p : Nat) (session : Nat → Except String Unit) (e : String),
      session p = Except.error e →
        handle_proxied_websocket (some p) session = WsOutcome.errorLogged e) ∧
    (∀ (app : StreamlitApp) (req : ProxyRequest) (rest : String)
        (send : UpstreamRequest → Except String UpstreamResponse) (e : String),
      send (forwardedRequest app req rest) = Except.error e →
        reverse_proxy app req rest send = Except.error e) := by
  refine ⟨fun _ => rfl, fun p session e h => ?_, fun app req rest send e h => ?_⟩
  · have hred : handle_proxied_websocket (some p) session =
        match session p with
        | Except.ok _ => WsOutcome.completed
        | Except.error e => WsOutcome.errorLogged e := rfl
    rw [hred, h]
  · unfold reverse_proxy
    rw [h]

/-- Witness for C7: the not-found response for a portless app, a contained
websocket session error, and a propagated HTTP transport error, each at
concrete inputs. -/
theorem proxy_failure_containment_witness :
    handle_proxied_websocket none (fun _ => Except.ok ()) = WsOutcome.notFound ∧
    handle_proxied_websocket (some 8501) (fun _ => Except.error "closed") =
      WsOutcome.errorLogged "closed" ∧
    reverse_proxy
        { filename := "f", uid := "u", name := "a", route := "/a/", port := some 8501 }
        { method := "GET", path := "/a/foo", query := "", headers := [], body := "" }
        "foo" (fun _ => Except.error "ConnectError") =
      Except.error "ConnectError" :=
  ⟨proxy_failure_containment.1 (fun _ => Except.ok ()),
   proxy_failure_containment.2.1 8501 (fun _ => Except.error "closed") "closed" rfl,
   proxy_failure_containment.2.2
     { filename := "f", uid := "u", name := "a", route := "/a/", port := some 8501 }
     { method := "GET", path := "/a/foo", query := "", headers := [], body := "" }
     "foo" (fun _ => Except.error "ConnectError") "ConnectError" rfl⟩

/-- C3: trace refuting terminal cancellation on failure. A job with
interval 5 and cancel_on_failure set whose body raises is run at t = 0: the
run is recorded as failed (success `some false`) and returns
`schedule.CancelJob` — but `run_pending` discards that return value, the
job stays in the job list rescheduled for t = 5, and at the t = 5 tick it
is selected as due and its body executes again. -/
theorem scheduler_cancel_on_failure_bug :
    run_pending
        [{ uid := "j", interval := 5, cancel_on_failure := true, run_immediately := true,
           last_run := none, next_run := 0 }] 0 false (fun _ => true) =
      ([{ uid := "j", interval := 5, cancel_on_failure := true, run_immediately := true,
          last_run := some 0, next_run := 5 }],
       [{ job := { uid := "j", interval := 5, cancel_on_failure := true,
                   run_immediately := true, last_run := some 0, next_run := 5 },
          ret := RunRet.cancelJob, executed := true, recorded_success := some false }]) ∧
    (run_pending
        [{ uid := "j", interval := 5, cancel_on_failure := true, run_immediately := true,
           last_run := some 0, next_run := 5 }] 5 false (fun _ => true)).2.map
        RunOutcome.executed = [true] := by
  constructor
  · rfl
  · rfl

/-- C4: trace refuting terminal cancellation of an overdue series. A job
whose next_run (0, interval 5) lags far behind the tick time 100 is
selected, its run aborts before executing the body (no job run is opened)
and returns `schedule.CancelJob` — but the job is never removed: at the
next tick (t = 101) it is again selected as due, again without executing
the body. The body is indeed never executed to catch up, but the series
never becomes terminally cancelled. -/
theorem scheduler_overdue_guard_bug :
    run_pending
        [{ uid := "k", interval := 5, cancel_on_failure := false, run_immediately := true,
           last_run := none, next_run := 0 }] 100 false (fun _ => false) =
      ([{ uid := "k", interval := 5, cancel_on_failure := false, run_immediately := true,
          last_run := none, next_run := 0 }],
       [{ job := { uid := "k", interval := 5, cancel_on_failure := false,
                   run_immediately := true, last_run := none, next_run := 0 },
          ret := RunRet.cancelJob, executed := false, recorded_success := none }]) ∧
    run_pending
        [{ uid := "k", interval := 5, cancel_on_failure := false, run_immediately := true,
           last_run := none, next_run := 0 }] 101 false (fun _ => false) =
      ([{ uid := "k", interval := 5, cancel_on_failure := false, run_immediately := true,
          last_run := none, next_run := 0 }],
       [{ job := { uid := "k", interval := 5, cancel_on_failure := false,
                   run_immediately := true, last_run := none, next_run := 0 },
          ret := RunRet.cancelJob, executed := false, recorded_success := none }]) := by
  constructor
  · rfl
  · rfl

theorem orderedInsert_map_route (a : StreamlitApp) (l : List StreamlitApp) :
    (List.orderedInsert routeLE a l).map StreamlitApp.route =
      List.orderedInsert (· ≤ ·) a.route (l.map StreamlitApp.route) := by
  induction l with
  | nil => rfl
  | cons b t ih =>
    simp only [List.orderedInsert, List.map_cons]
    by_cases h : routeLE a b
    · rw [if_pos h, if_pos (show a.route ≤ b.route from h)]
      simp
    · rw [if_neg h, if_neg (show ¬a.route ≤ b.route from h)]
      simp [ih]

theorem insertionSort_map_route (l : List StreamlitApp) :
    (List.insertionSort routeLE l).map StreamlitApp.route =
      List.insertionSort (· ≤ ·) (l.map StreamlitApp.route) := by
  induction l with
  | nil => rfl
  | cons a t ih =>
    simp only [List.insertionSort, List.map_cons]
    rw [← ih, orderedInsert_map_route]

theorem routePorts_eq_portsOfRoutes (l : List StreamlitApp) :
    routePorts l =
      portsOfRoutes (List.insertionSort (· ≤ ·) (l.map StreamlitApp.route)) := by
  unfold routePorts generate_artifacts_json portsOfRoutes
  rw [← insertionSort_map_route, List.enum_map, List.map_map, List.map_map]
  rfl

/-- C2: the route-to-port mapping produced by generate_artifacts_json is a
function of the route set alone — two registration lists with the same
(duplicate-free) route set, in any order, receive identical mappings. -/
theorem generate_artifacts_json_deterministic (l₁ l₂ : List StreamlitApp)
    (h₁ : (l₁.map StreamlitApp.route).Nodup) (h₂ : (l₂.map StreamlitApp.route).Nodup)
    (hset : (l₁.map StreamlitApp.route).toFinset = (l₂.map StreamlitApp.route).toFinset) :
    routePorts l₁ = routePorts l₂ := by
  rw [routePorts_eq_portsOfRoutes, routePorts_eq_portsOfRoutes]
  congr 1
  exact List.eq_of_perm_of_sorted
    (((List.perm_insertionSort _ _).trans
        (List.perm_of_nodup_nodup_toFinset_eq h₁ h₂ hset)).trans
      (List.perm_insertionSort _ _).symm)
    (List.sorted_insertionSort _ _)
    (List.sorted_insertionSort _ _)

/-- Witness for C2: two lists registering routes "/a/" and "/b/" in
opposite orders — and with different incidental fields — get the same
route-to-port mapping. -/
theorem generate_artifacts_json_deterministic_witness :
    routePorts
        [{ filename := "f1", uid := "u1", name := "A", route := "/a/" },
         { filename := "f2", uid := "u2", name := "B", route := "/b/" }] =
      routePorts
        [{ filename := "g2", uid := "w2", name := "B2", route := "/b/", port := some 9 },
         { filename := "g1", uid := "w1", name := "A2", route := "/a/", port := some 7 }] :=
  generate_artifacts_json_deterministic _ _ (by decide) (by decide) (by decide)

theorem digitChar_ne_dash (m : Nat) (h : m < 10) : Nat.digitChar m ≠ '-' := by
  interval_cases m <;> decide

theorem toDigitsCore_no_dash (fuel : Nat) : ∀ (n : Nat) (acc : List Char),
    (∀ c ∈ acc, c ≠ '-') → ∀ c ∈ Nat.toDigitsCore 10 fuel n acc, c ≠ '-' := by
  induction fuel with
  | zero => intro n acc hacc; simpa [Nat.toDigitsCore] using hacc
  | succ f ih =>
    intro n acc hacc
    simp only [Nat.toDigitsCore]
    have hd : ∀ c ∈ Nat.digitChar (n % 10) :: acc, c ≠ '-' := by
      intro c hc
      rcases List.mem_cons.mp hc with h | h
      · subst h; exact digitChar_ne_dash _ (Nat.mod_lt _ (by norm_num))
      · exact hacc c h
    split
    · exact hd
    · exact ih (n / 10) _ hd

theorem repr_no_dash (n : Nat) : ∀ c ∈ (Nat.repr n).data, c ≠ '-' := by
  intro c hc
  have hdig : (Nat.repr n).data = Nat.toDigits 10 n := rfl
  rw [hdig] at hc
  exact toDigitsCore_no_dash (n + 1) n [] (by simp) c hc

theorem portStr_no_dash (p : Option Nat) : ∀ c ∈ (portStr p).data, c ≠ '-' := by
  cases p with
  | none => decide
  | some n => exact repr_no_dash n

theorem takeWhile_no_dash (l r : List Char) (hl : ∀ c ∈ l, c ≠ '-') :
    (l ++ '-' :: r).takeWhile (fun c => c != '-') = l := by
  induction l with
  | nil => simp
  | cons a t ih =>
    have ha : a ≠ '-' := hl a (List.mem_cons_self a t)
    simp only [List.cons_append, List.takeWhile_cons]
    rw [if_pos (by simpa using ha)]
    rw [ih (fun c hc => hl c (List.mem_cons_of_mem a hc))]

theorem append_dash_inj (u₁ u₂ d₁ d₂ : List Char)
    (h₁ : ∀ c ∈ d₁, c ≠ '-') (h₂ : ∀ c ∈ d₂, c ≠ '-')
    (heq : u₁ ++ '-' :: d₁ = u₂ ++ '-' :: d₂) : u₁ = u₂ := by
  have hrev : d₁.reverse ++ '-' :: u₁.reverse = d₂.reverse ++ '-' :: u₂.reverse := by
    have := congrArg List.reverse heq
    simpa using this
  have ht₁ : (d₁.reverse ++ '-' :: u₁.reverse).takeWhile (fun c => c != '-') = d₁.reverse :=
    takeWhile_no_dash _ _ (fun c hc => h₁ c (List.mem_reverse.mp hc))
  have ht₂ : (d₂.reverse ++ '-' :: u₂.reverse).takeWhile (fun c => c != '-') = d₂.reverse :=
    takeWhile_no_dash _ _ (fun c hc => h₂ c (List.mem_reverse.mp hc))
  have hd : d₁.reverse = d₂.reverse := by rw [← ht₁, ← ht₂, hrev]
  have hd' : d₁ = d₂ := List.reverse_injective hd
  subst hd'
  exact List.append_inj_left' heq rfl

theorem get_stable_app_id_data (a : StreamlitApp) :
    (get_stable_app_id a).data = a.uid.data ++ '-' :: (portStr a.port).data := by
  unfold get_stable_app_id
  rw [String.data_append, String.data_append]
  have hd : ("-" : String).data = ['-'] := rfl
  rw [hd, List.append_assoc]
  rfl

theorem get_stable_app_id_inj_uid (a b : StreamlitApp)
    (h : get_stable_app_id a = get_stable_app_id b) : a.uid = b.uid := by
  have hd := congrArg String.data h
  rw [get_stable_app_id_data, get_stable_app_id_data] at hd
  exact String.ext
    (append_dash_inj _ _ _ _ (portStr_no_dash a.port) (portStr_no_dash b.port) hd)

theorem dictGet_dictSet_ne (d : List (String × α)) (k k' : String) (v : α)
    (h : k' ≠ k) : dictGet (dictSet d k v) k' = dictGet d k' := by
  unfold dictGet dictSet
  rw [List.find?_cons_of_neg]
  simp only [beq_iff_eq]
  exact Ne.symm h

theorem foldl_dictSet_get_not_mem (fresh : String → ProcHandle) (ks : List String)
    (d : List (String × ProcHandle)) (k : String) (hk : k ∉ ks) :
    dictGet (ks.foldl (fun d k' => dictSet d k' (fresh k')) d) k = dictGet d k := by
  induction ks generalizing d with
  | nil => rfl
  | cons a t ih =>
    rw [List.foldl_cons]
    rw [ih (dictSet d a (fresh a)) (fun hmem => hk (List.mem_cons_of_mem a hmem))]
    exact dictGet_dictSet_ne d a k (fresh a)
      (fun he => hk (List.mem_cons.mpr (Or.inl he)))

theorem buildAppsMap_mem_aux (apps : List StreamlitApp) :
    ∀ acc : List (String × StreamlitApp),
      (∀ p ∈ acc, get_stable_app_id p.2 = p.1) →
      ∀ p ∈ apps.foldl (fun d a => dictSet d (get_stable_app_id a) a) acc,
        get_stable_app_id p.2 = p.1 := by
  induction apps with
  | nil => intro acc hacc p hp; exact hacc p hp
  | cons a t ih =>
    intro acc hacc p hp
    rw [List.foldl_cons] at hp
    refine ih _ ?_ p hp
    intro q hq
    simp only [dictSet] at hq
    rcases List.mem_cons.mp hq with h | h
    · subst h; rfl
    · exact hacc q h

theorem buildAppsMap_wf (apps : List StreamlitApp) :
    ∀ p ∈ buildAppsMap apps, get_stable_app_id p.2 = p.1 :=
  buildAppsMap_mem_aux apps [] (by intro p hp; cases hp)

theorem buildAppsMap_keys_aux (apps : List StreamlitApp) :
    ∀ acc : List (String × StreamlitApp),
      dictKeys (apps.foldl (fun d a => dictSet d (get_stable_app_id a) a) acc) =
        dictKeys acc ∪ (apps.map get_stable_app_id).toFinset := by
  induction apps with
  | nil => intro acc; simp [dictKeys]
  | cons a t ih =>
    intro acc
    rw [List.foldl_cons, ih]
    have h1 : dictKeys (dictSet acc (get_stable_app_id a) a) =
        insert (get_stable_app_id a) (dictKeys acc) := by
      simp [dictKeys, dictSet]
    rw [h1]
    simp only [List.map_cons, List.toFinset_cons]
    ext x
    simp only [Finset.mem_union, Finset.mem_insert]
    tauto

theorem buildAppsMap_keys (apps : List StreamlitApp) :
    dictKeys (buildAppsMap apps) = (apps.map get_stable_app_id).toFinset := by
  unfold buildAppsMap
  rw [buildAppsMap_keys_aux]
  simp [dictKeys]

theorem dictGet_mem (d : List (String × α)) (k : String) (v : α)
    (h : dictGet d k = some v) : (k, v) ∈ d := by
  unfold dictGet at h
  cases hf : List.find? (fun p => p.1 == k) d with
  | none => rw [hf] at h; cases h
  | some q =>
    rw [hf] at h
    have hv : q.2 = v := by simpa using h
    have hk : q.1 = k := by simpa using List.find?_some hf
    have hmem := List.mem_of_find?_eq_some hf
    have hq : q = (k, v) := Prod.ext hk hv
    rw [← hq]
    exact hmem

theorem dictGet_of_mem_keys (d : List (String × α)) (k : String)
    (h : k ∈ dictKeys d) : ∃ v, dictGet d k = some v := by
  unfold dictKeys at h
  rw [List.mem_toFinset] at h
  obtain ⟨p, hp, hpk⟩ := List.mem_map.mp h
  have hsome : (List.find? (fun q => q.1 == k) d).isSome := by
    rw [List.find?_isSome]
    exact ⟨p, hp, by simp [hpk]⟩
  obtain ⟨q, hq⟩ := Option.isSome_iff_exists.mp hsome
  refine ⟨q.2, ?_⟩
  unfold dictGet
  rw [hq]
  rfl

theorem restartCond_eq_false (apps : List StreamlitApp)
    (prev : List (String × StreamlitApp))
    (hprev : ∀ p ∈ prev, get_stable_app_id p.2 = p.1) (k : String)
    (hnew : k ∈ dictKeys (buildAppsMap apps)) (hold : k ∈ dictKeys prev) :
    restartCond (buildAppsMap apps) prev k = false := by
  obtain ⟨na, hna⟩ := dictGet_of_mem_keys _ _ hnew
  obtain ⟨oa, hoa⟩ := dictGet_of_mem_keys _ _ hold
  have h1 : get_stable_app_id na = k := buildAppsMap_wf apps (k, na) (dictGet_mem _ _ _ hna)
  have h2 : get_stable_app_id oa = k := hprev (k, oa) (dictGet_mem _ _ _ hoa)
  have huid : oa.uid = na.uid := get_stable_app_id_inj_uid oa na (h2.trans h1.symm)
  unfold restartCond
  rw [hna, hoa]
  simp [huid]

theorem update_restarted_nil (s : WatcherState) (apps : List StreamlitApp)
    (hwf : s.wf) :
    ((buildAppsMap apps).map Prod.fst).dedup.filter
      (fun k => decide (k ∈ dictKeys s.apps) && restartCond (buildAppsMap apps) s.apps k) =
      [] := by
  rw [List.filter_eq_nil_iff]
  intro k hk
  have hknew : k ∈ dictKeys (buildAppsMap apps) := by
    unfold dictKeys
    rw [List.mem_toFinset]
    exact List.mem_dedup.mp hk
  by_cases hkold : k ∈ dictKeys s.apps
  · have := restartCond_eq_false apps s.apps hwf k hknew hkold
    simp [this]
  · simp [hkold]

theorem toFinset_filter_not_mem_dedup (L : List String) (S : Finset String) :
    (L.dedup.filter (fun k => decide (k ∉ S))).toFinset = L.toFinset \ S := by
  ext x
  simp [List.mem_filter, Finset.mem_sdiff]

theorem filter_not_mem_dedup_length_iff (L : List String) (S : Finset String) :
    ((L.dedup.filter (fun k => decide (k ∉ S))).length != 0) = true ↔
      (L.toFinset \ S).Nonempty := by
  rw [← toFinset_filter_not_mem_dedup L S]
  rw [bne_iff_ne, Finset.nonempty_iff_ne_empty]
  rw [ne_eq, List.length_eq_zero, ne_eq]
  rw [List.toFinset_eq_empty_iff]

theorem update_started_eq (s : WatcherState) (apps : List StreamlitApp)
    (fresh : String → ProcHandle) (hwf : s.wf) :
    (update_processes_from_apps s apps fresh).started =
      (apps.map get_stable_app_id).toFinset \ dictKeys s.apps := by
  simp only [update_processes_from_apps]
  rw [update_restarted_nil s apps hwf, List.append_nil]
  rw [toFinset_filter_not_mem_dedup]
  rw [show ((buildAppsMap apps).map Prod.fst).toFinset = dictKeys (buildAppsMap apps) from rfl]
  rw [buildAppsMap_keys]

theorem update_stopped_eq (s : WatcherState) (apps : List StreamlitApp)
    (fresh : String → ProcHandle) (hwf : s.wf) :
    (update_processes_from_apps s apps fresh).stopped =
      dictKeys s.apps \ (apps.map get_stable_app_id).toFinset := by
  simp only [update_processes_from_apps]
  rw [update_restarted_nil s apps hwf]
  simp only [List.toFinset_nil, Finset.union_empty]
  rw [toFinset_filter_not_mem_dedup]
  rw [show (s.apps.map Prod.fst).toFinset = dictKeys s.apps from rfl]
  rw [buildAppsMap_keys]

theorem update_preserves_shared (s : WatcherState) (apps : List StreamlitApp)
    (fresh : String → ProcHandle) (hwf : s.wf) (k : String)
    (hold : k ∈ dictKeys s.apps) :
    dictGet (update_processes_from_apps s apps fresh).state.processes k =
      dictGet s.processes k := by
  simp only [update_processes_from_apps]
  rw [update_restarted_nil s apps hwf, List.append_nil]
  apply foldl_dictSet_get_not_mem
  intro hmem
  rw [List.mem_filter] at hmem
  have hnot : k ∉ dictKeys s.apps := by simpa using hmem.2
  exact hnot hold

theorem update_changed_iff (s : WatcherState) (apps : List StreamlitApp)
    (fresh : String → ProcHandle) :
    ((update_processes_from_apps s apps fresh).changed = true) ↔
      (((apps.map get_stable_app_id).toFinset \ dictKeys s.apps).Nonempty ∨
        (dictKeys s.apps \ (apps.map get_stable_app_id).toFinset).Nonempty) := by
  simp only [update_processes_from_apps]
  rw [Bool.or_eq_true]
  rw [filter_not_mem_dedup_length_iff, filter_not_mem_dedup_length_iff]
  rw [show ((buildAppsMap apps).map Prod.fst).toFinset = dictKeys (buildAppsMap apps) from rfl]
  rw [show (s.apps.map Prod.fst).toFinset = dictKeys s.apps from rfl]
  rw [buildAppsMap_keys]

/-- C1: for a key-consistent previous state, one reconciliation starts
processes for exactly the stable identities (uid+port keys) present in the
desired list but absent from the previous map, stops exactly those present
before but now absent, leaves the process-table entry of every identity
present in both unchanged, and returns true exactly when some identity was
added or removed. -/
theorem update_processes_from_apps_reconciles (s : WatcherState)
    (apps : List StreamlitApp) (fresh : String → ProcHandle) (hwf : s.wf) :
    (update_processes_from_apps s apps fresh).started =
        (apps.map get_stable_app_id).toFinset \ dictKeys s.apps ∧
    (update_processes_from_apps s apps fresh).stopped =
        dictKeys s.apps \ (apps.map get_stable_app_id).toFinset ∧
    (∀ k, k ∈ dictKeys s.apps → k ∈ (apps.map get_stable_app_id).toFinset →
      dictGet (update_processes_from_apps s apps fresh).state.processes k =
        dictGet s.processes k) ∧
    ((update_processes_from_apps s apps fresh).changed = true ↔
      (((apps.map get_stable_app_id).toFinset \ dictKeys s.apps).Nonempty ∨
        (dictKeys s.apps \ (apps.map get_stable_app_id).toFinset).Nonempty)) :=
  ⟨update_started_eq s apps fresh hwf, update_stopped_eq s apps fresh hwf,
   fun k hold _ => update_preserves_shared s apps fresh hwf k hold,
   update_changed_iff s apps fresh⟩

/-- Witness for C1: from a state running apps "u1" (port 8501, handle 1)
and "u2" (port 8502, handle 2), reconciling to the list ["u1" on 8501,
"u3" on 8503] starts exactly "u3-8503", stops exactly "u2-8502", keeps
handle 1 for "u1-8501", and reports a change. -/
theorem update_processes_from_apps_reconciles_witness :
    (update_processes_from_apps
        ⟨[("u1-8501", { filename := "fa", uid := "u1", name := "A", route := "/a/",
                        port := some 8501 }),
          ("u2-8502", { filename := "fb", uid := "u2", name := "B", route := "/b/",
                        port := some 8502 })],
         [("u1-8501", 1), ("u2-8502", 2)]⟩
        [{ filename := "fa", uid := "u1", name := "A", route := "/a/", port := some 8501 },
         { filename := "fc", uid := "u3", name := "C", route := "/c/", port := some 8503 }]
        (fun _ => 7)).started = {"u3-8503"} ∧
    (update_processes_from_apps
        ⟨[("u1-8501", { filename := "fa", uid := "u1", name := "A", route := "/a/",
                        port := some 8501 }),
          ("u2-8502", { filename := "fb", uid := "u2", name := "B", route := "/b/",
                        port := some 8502 })],
         [("u1-8501", 1), ("u2-8502", 2)]⟩
        [{ filename := "fa", uid := "u1", name := "A", route := "/a/", port := some 8501 },
         { filename := "fc", uid := "u3", name := "C", route := "/c/", port := some 8503 }]
        (fun _ => 7)).stopped = {"u2-8502"} ∧
    dictGet (update_processes_from_apps
        ⟨[("u1-8501", { filename := "fa", uid := "u1", name := "A", route := "/a/",
                        port := some 8501 }),
          ("u2-8502", { filename := "fb", uid := "u2", name := "B", route := "/b/",
                        port := some 8502 })],
         [("u1-8501", 1), ("u2-8502", 2)]⟩
        [{ filename := "fa", uid := "u1", name := "A", route := "/a/", port := some 8501 },
         { filename := "fc", uid := "u3", name := "C", route := "/c/", port := some 8503 }]
        (fun _ => 7)).state.processes "u1-8501" = some 1 ∧
    (update_processes_from_apps
        ⟨[("u1-8501", { filename := "fa", uid := "u1", name := "A", route := "/a/",
                        port := some 8501 }),
          ("u2-8502", { filename := "fb", uid := "u2", name := "B", route := "/b/",
                        port := some 8502 })],
         [("u1-8501", 1), ("u2-8502", 2)]⟩
        [{ filename := "fa", uid := "u1", name := "A", route := "/a/", port := some 8501 },
         { filename := "fc", uid := "u3", name := "C", route := "/c/", port := some 8503 }]
        (fun _ => 7)).changed = true := by
  have h := update_processes_from_apps_reconciles
    ⟨[("u1-8501", { filename := "fa", uid := "u1", name := "A", route := "/a/",
                    port := some 8501 }),
      ("u2-8502", { filename := "fb", uid := "u2", name := "B", route := "/b/",
                    port := some 8502 })],
     [("u1-8501", 1), ("u2-8502", 2)]⟩
    [{ filename := "fa", uid := "u1", name := "A", route := "/a/", port := some 8501 },
     { filename := "fc", uid := "u3", name := "C", route := "/c/", port := some 8503 }]
    (fun _ => 7) (by unfold WatcherState.wf; decide)
  exact ⟨h.1.trans (by decide), h.2.1.trans (by decide),
    (h.2.2.1 "u1-8501" (by decide) (by decide)).trans (by decide),
    h.2.2.2.mpr (Or.inl (by decide))⟩

end Databutton
